import Mathlib

/-!
# Even-Crop — verification of the Brain core

Shallow embedding of the timing scheduler (`brain/scheduler.py`), the
adaptive-delay estimator and press history (`brain/server.py`), and the
GPIO layer's timed drive and pulse counter (`brain/io_gpio.py`).

Python `int` is modelled as `ℤ`, Python `float` as `ℚ` (every float is a
rational and all constants appearing here are exactly representable),
timestamps in seconds as `ℚ`.  Python `round` (banker's rounding,
half-to-even) is `pyRound`; Python `int(·)` applied to a float (truncation
toward zero) is `pyTrunc`.
-/

namespace EvenCrop

/-- Python `round` on a rational: round half to even (banker's rounding). -/
def pyRound (q : ℚ) : ℤ :=
  let f := ⌊q⌋
  let r := q - f
  if r < 1/2 then f
  else if 1/2 < r then f + 1
  else if f % 2 = 0 then f else f + 1

/-- Python `int(·)` on a float: truncation toward zero. -/
def pyTrunc (q : ℚ) : ℤ :=
  if q < 0 then ⌈q⌉ else ⌊q⌋

/-! ## Data model (`scheduler.py` dataclasses) -/

/-- `UnitState.group`: `"A" | "B"`. -/
inductive Group
  | A
  | B
deriving DecidableEq, Repr

/-- `UnitState.mode`: `"inherit" | "flow" | "timed"`. -/
inductive UnitMode
  | inherit
  | flow
  | timed
deriving DecidableEq, Repr

/-- Global `deliveryMode`: `"flow" | "timed"`. -/
inductive DeliveryMode
  | flow
  | timed
deriving DecidableEq, Repr

/-- `scheduler.UnitState` (the fields the scheduler reads). -/
structure UnitState where
  id : ℤ
  enabled : Bool
  group : Group
  momentary : String
  offset : ℤ
  perDelayMs : ℤ
  mode : UnitMode
  pulsesPerCycle : ℤ
  msPerMl : ℚ
deriving DecidableEq, Repr

/-- `scheduler.MomentaryCfg`. -/
structure MomentaryCfg where
  enabled : Bool
  offset : ℤ
deriving DecidableEq, Repr

/-- `scheduler.AutoDelay`. -/
structure AutoDelay where
  enabled : Bool
  manualMs : ℤ
  geomLeadMs : ℤ
  currentMs : ℤ
deriving DecidableEq, Repr

/-- `scheduler.BrainStateView`; the momentary dict is an association list. -/
structure BrainStateView where
  targetMl : ℤ
  deliveryMode : DeliveryMode
  autoDelay : AutoDelay
  momentary : List (String × MomentaryCfg)
  units : List UnitState
deriving Repr

/-- The pattern selector. -/
inductive Pattern
  | diamond
  | diagonal
  | line
deriving DecidableEq, Repr

/-! ## `scheduler.py` helpers -/

/-- `scheduler._momentary_ms`: `cfg = m.get(name or "", None); if not cfg:
return 0; pct = max(0, min(100, int(cfg.offset))); return int(round(pct*10))`.
A present `MomentaryCfg` is always truthy in Python, so `if not cfg` fires
only when the key is absent: the `enabled` flag of the config is never
consulted. -/
def momentary_ms (m : List (String × MomentaryCfg)) (name : String) : ℤ :=
  match m.lookup name with
  | none => 0
  | some cfg => (max 0 (min 100 cfg.offset)) * 10

/-- `scheduler._pattern_base_ms` (with its `diagonal_step_ms` argument,
default 80, passed explicitly). -/
def pattern_base_ms (p : Pattern) (u : UnitState) (auto : AutoDelay)
    (diagonal_step_ms : ℤ) : ℤ :=
  match p with
  | .diamond => if u.group = Group.A then 0 else max 0 auto.currentMs
  | .diagonal => max 0 ((u.id - 1) * diagonal_step_ms)
  | .line => 0

/-- `scheduler._inherit_mode`: the unit mode when it is `flow`/`timed`,
otherwise the global mode. -/
def inherit_mode (global_mode : DeliveryMode) (unit_mode : UnitMode) :
    DeliveryMode :=
  match unit_mode with
  | .flow => .flow
  | .timed => .timed
  | .inherit => global_mode

/-- The per-unit delay after the diamond re-safety clamp in
`Scheduler._unit_fire_ms`: starting from `per = int(unit.perDelayMs or 0)`,
for diamond/B `if per < -max(0, currentMs): per = -max(0, currentMs)`, and
for diamond/A `if per < 0: per = 0`. -/
def clamped_per (p : Pattern) (u : UnitState) (auto : AutoDelay) : ℤ :=
  let per := u.perDelayMs
  let per := if p = Pattern.diamond ∧ u.group = Group.B then
    max per (-(max 0 auto.currentMs)) else per
  if p = Pattern.diamond ∧ u.group = Group.A then max per 0 else per

/-- `Scheduler._unit_fire_ms`:
`base_ms + _pattern_base_ms(...) + _momentary_ms(...) + clamped per-delay`. -/
def unit_fire_ms (p : Pattern) (base_ms : ℤ) (u : UnitState)
    (st : BrainStateView) : ℤ :=
  base_ms + pattern_base_ms p u st.autoDelay 80
    + momentary_ms st.momentary u.momentary
    + clamped_per p u st.autoDelay

/-- The mode dict attached to a schedule entry. -/
inductive ModeInfo
  | timed (ms_per_ml : ℚ) (target_ml : ℤ)
  | flow (pulses : ℤ) (target_ml : ℤ)
deriving DecidableEq, Repr

/-- `Scheduler._duration_and_mode`.  `float(unit.msPerMl or 5.0)` and
`int(unit.pulsesPerCycle or 100)` substitute the default when the stored
value is falsy, i.e. zero. -/
def duration_and_mode (u : UnitState) (st : BrainStateView) :
    Option ℤ × ModeInfo :=
  let target := max 1 st.targetMl
  match inherit_mode st.deliveryMode u.mode with
  | .timed =>
      let ms_per_ml := max (1/10 : ℚ) (if u.msPerMl = 0 then 5 else u.msPerMl)
      (some (pyRound (target * ms_per_ml)), .timed ms_per_ml target)
  | .flow =>
      let pulses := max 1 (if u.pulsesPerCycle = 0 then 100 else u.pulsesPerCycle)
      (none, .flow pulses target)

/-- One element of the list returned by `plan_cycle`:
`(unit_id, start_ms, duration_ms, mode_dict)`. -/
structure Entry where
  uid : ℤ
  start : ℤ
  duration : Option ℤ
  info : ModeInfo
deriving DecidableEq, Repr

/-- The sort key of `plan_cycle`: lexicographic `(start_ms, unit_id)`. -/
def entryLE (a b : Entry) : Prop :=
  a.start < b.start ∨ (a.start = b.start ∧ a.uid ≤ b.uid)

instance : DecidableRel entryLE := fun a b => by
  unfold entryLE
  infer_instance

instance : IsTotal Entry entryLE := by
  constructor
  intro a b
  unfold entryLE
  omega

instance : IsTrans Entry entryLE := by
  constructor
  intro a b c hab hbc
  unfold entryLE at *
  omega

/-- The dead filter of `Scheduler.plan_cycle` line 167:
`if pressed_m and u.momentary and u.momentary != pressed_m:` (a non-empty
`pressed_m`, a non-empty bound name, and a mismatch). Its body is `pass`. -/
def pressed_filter (pressed_m : Option String) (u : UnitState) : Prop :=
  match pressed_m with
  | none => False
  | some p => p ≠ "" ∧ u.momentary ≠ "" ∧ u.momentary ≠ p

instance (pressed_m : Option String) (u : UnitState) :
    Decidable (pressed_filter pressed_m u) := by
  unfold pressed_filter
  cases pressed_m <;> infer_instance

/-- `Scheduler.plan_cycle`: for each enabled, non-tramlined unit build
`(unit_id, start_ms, duration_ms, mode_dict)`; the `pressed_m` filter's
body is `pass`, so the entry is built whether or not the condition holds;
finally sort by `(start_ms, unit_id)` (Python's stable sort; modelled by
the stable `insertionSort`). -/
def plan_cycle (p : Pattern) (tram_off : ℤ → Bool) (st : BrainStateView)
    (now_ms : ℤ) (pressed_m : Option String) : List Entry :=
  let out := st.units.filterMap (fun u =>
    if u.enabled = false then none
    else if tram_off u.id then none
    else if pressed_filter pressed_m u then
      some ⟨u.id, unit_fire_ms p now_ms u st,
        (duration_and_mode u st).1, (duration_and_mode u st).2⟩
    else
      some ⟨u.id, unit_fire_ms p now_ms u st,
        (duration_and_mode u st).1, (duration_and_mode u st).2⟩)
  List.insertionSort entryLE out

/-! ## `server.py` — press history and the adaptive delay estimator

Press timestamps are `time.time()` values, i.e. seconds as `ℚ`. -/

/-- `Hub.cycle_loop` press recording:
`pressHistory.append(now); pressHistory = pressHistory[-20:]`. -/
def press_append (hist : List ℚ) (now : ℚ) : List ℚ :=
  let l := hist ++ [now]
  l.drop (l.length - 20)

/-- The window filter of `Hub._auto_delay_loop`:
`[p for p in pressHistory if time.time() - p < 15]` (one tick's wall-clock
reading modelled as the single value `now`). -/
def window_presses (now : ℚ) (hist : List ℚ) : List ℚ :=
  hist.filter (fun p => now - p < 15)

/-- `intervals = [(ph[i] - ph[i-1]) for i in range(1, len(ph))]`. -/
def press_intervals (ph : List ℚ) : List ℚ :=
  List.zipWith (fun a b => a - b) (ph.drop 1) ph

/-- One body iteration of `Hub._auto_delay_loop`, returning the new
`currentMs`.  Disabled: `max(0, manualMs + geomLeadMs)`.  Enabled: filter
to the last 15 s; with ≥ 3 presses, `b = max(0, int(avg*1000/2))` where
`avg` is the mean consecutive interval in seconds, else `b = manualMs`;
then `b += geomLeadMs; b = max(0, b)`. -/
def auto_delay_tick (now : ℚ) (ad : AutoDelay) (pressHistory : List ℚ) : ℤ :=
  if ad.enabled = false then max 0 (ad.manualMs + ad.geomLeadMs)
  else
    let ph := window_presses now pressHistory
    let b : ℤ :=
      if 3 ≤ ph.length then
        let ivs := press_intervals ph
        let avg := ivs.sum / (ivs.length : ℚ)
        max 0 (pyTrunc (avg * 1000 / 2))
      else ad.manualMs
    max 0 (b + ad.geomLeadMs)

/-- The mean consecutive inter-press interval, in milliseconds, of the
windowed history — the quantity the spec's estimator formula
`max(0, round(mean_interval / 2) + geom_lead_ms)` is phrased over. -/
def mean_interval_ms (now : ℚ) (hist : List ℚ) : ℚ :=
  let ivs := press_intervals (window_presses now hist)
  (ivs.sum / (ivs.length : ℚ)) * 1000

/-- The spec's formula for the enabled, ≥ 3-presses case, with `round`
taken literally (Modelled from the spec: `current = max(0,
round(mean_interval / 2) + geom_lead_ms)`). -/
def spec_enabled_current (now : ℚ) (ad : AutoDelay) (hist : List ℚ) : ℤ :=
  max 0 (round (mean_interval_ms now hist / 2) + ad.geomLeadMs)

/-! ## `io_gpio.py` — timed drive and the pulse counter -/

/-- How the `await asyncio.sleep(...)` inside `RPiGPIO.open_unit_for` can
exit: normal completion, `CancelledError` injected at the suspension
point, or any other exception. -/
inductive SleepExit
  | completed
  | cancelled
  | errored
deriving DecidableEq, Repr

/-- A write to the unit's output pin. -/
inductive Drive
  | setHigh
  | setLow
deriving DecidableEq, Repr

/-- The sequence of pin writes performed by `RPiGPIO.open_unit_for` for a
given sleep outcome.  When the unit is unmapped the function only sleeps.
When mapped it runs `RGPIO.output(pin, HIGH)` and then
`try: await asyncio.sleep(...) finally: RGPIO.output(pin, LOW)`; Python's
`finally` runs the LOW write on normal completion, on `CancelledError`,
and on any other exception, so every exit path emits exactly the pair
HIGH, LOW. -/
def open_unit_for_drives (mapped : Bool) (o : SleepExit) : List Drive :=
  if mapped then
    match o with
    | .completed => [.setHigh, .setLow]
    | .cancelled => [.setHigh, .setLow]
    | .errored => [.setHigh, .setLow]
  else []

/-- Shared pulse-counter state: the field `_pulse_count`, the local `c` of
a read in progress, and the values returned by completed reads. -/
structure CounterSt where
  pulse_count : ℕ
  loaded : Option ℕ
  returned : List ℕ
deriving DecidableEq, Repr

/-- Atomic steps of the two threads touching `_pulse_count`:
`inc` is `RPiGPIO._flow_cb` (`self._pulse_count += 1`, run on the
RPi.GPIO callback thread); `load` and `reset` are the two statements of
`BaseGPIO.get_pulses_and_reset` (`c = self._pulse_count` and
`self._pulse_count = 0; return c`), run on the event-loop thread. -/
inductive PulseAct
  | inc
  | load
  | reset
deriving DecidableEq, Repr

/-- Interleaving semantics of the pulse counter. -/
def pulse_step (s : CounterSt) (a : PulseAct) : CounterSt :=
  match a with
  | .inc => { s with pulse_count := s.pulse_count + 1 }
  | .load => { s with loaded := some s.pulse_count }
  | .reset => { pulse_count := 0, loaded := none,
                returned := s.returned ++ [s.loaded.getD 0] }

/-- Run a schedule of interleaved steps from the initial state. -/
def pulse_run (acts : List PulseAct) : CounterSt :=
  acts.foldl pulse_step ⟨0, none, []⟩

/-- Pulses accounted for after a schedule: everything ever returned by a
read plus whatever is still in the counter. -/
def pulses_delivered (acts : List PulseAct) : ℕ :=
  (pulse_run acts).returned.sum + (pulse_run acts).pulse_count

/-! ## Claims -/

/-- C1: in `plan_cycle` with the `diamond` pattern the per-unit delay
component of `start_ms` is clamped — floored at 0 for a group-A unit and
at `-currentMs` for a group-B unit (so B ≥ `-currentMs`, A ≥ 0, given the
data-model invariant `currentMs ≥ 0`) — while `diagonal` and `line` apply
no clamp. -/
theorem diamond_per_delay_clamp (u : UnitState) (auto : AutoDelay)
    (hc : 0 ≤ auto.currentMs) :
    (u.group = Group.A →
      clamped_per Pattern.diamond u auto = max u.perDelayMs 0 ∧
      0 ≤ clamped_per Pattern.diamond u auto) ∧
    (u.group = Group.B →
      clamped_per Pattern.diamond u auto = max u.perDelayMs (-auto.currentMs) ∧
      -auto.currentMs ≤ clamped_per Pattern.diamond u auto) ∧
    clamped_per Pattern.diagonal u auto = u.perDelayMs ∧
    clamped_per Pattern.line u auto = u.perDelayMs := by
  unfold clamped_per
  rcases u with ⟨id, en, g, mom, off, per, mode, ppc, ms⟩
  cases g <;> simp_all

/-- Witness for C1 at a concrete group-B unit with `perDelayMs = -1000`
and `currentMs = 300`. -/
theorem diamond_per_delay_clamp_witness :
    clamped_per Pattern.diamond
        ⟨2, true, Group.B, "M1", 0, -1000, UnitMode.inherit, 100, 5⟩
        ⟨true, 500, 0, 300⟩
      = max (-1000) (-300) ∧
    (-300 : ℤ) ≤ clamped_per Pattern.diamond
        ⟨2, true, Group.B, "M1", 0, -1000, UnitMode.inherit, 100, 5⟩
        ⟨true, 500, 0, 300⟩ :=
  (diamond_per_delay_clamp
    ⟨2, true, Group.B, "M1", 0, -1000, UnitMode.inherit, 100, 5⟩
    ⟨true, 500, 0, 300⟩ (by decide)).2.1 rfl

/-- C2: for every snapshot, press time and pressed switch, the list
returned by `plan_cycle` is sorted by `(start_ms, unit_id)` and every
entry comes from a unit record that is enabled and not tramlined off. -/
theorem plan_cycle_sorted_and_filtered (p : Pattern) (tram_off : ℤ → Bool)
    (st : BrainStateView) (now_ms : ℤ) (pressed_m : Option String) :
    (plan_cycle p tram_off st now_ms pressed_m).Sorted entryLE ∧
    ∀ e ∈ plan_cycle p tram_off st now_ms pressed_m,
      ∃ u ∈ st.units, e.uid = u.id ∧ u.enabled = true ∧
        tram_off u.id = false := by
  constructor
  · exact List.sorted_insertionSort entryLE _
  · intro e he
    rw [show plan_cycle p tram_off st now_ms pressed_m
        = List.insertionSort entryLE _ from rfl,
      List.mem_insertionSort] at he
    rcases List.mem_filterMap.mp he with ⟨u, hu, hcond⟩
    refine ⟨u, hu, ?_⟩
    by_cases h1 : u.enabled = false
    · simp [h1] at hcond
    · by_cases h2 : tram_off u.id
      · simp [h1, h2] at hcond
      · have h1' : u.enabled = true := by
          cases hb : u.enabled
          · exact absurd hb h1
          · rfl
        have h2' : tram_off u.id = false := by
          cases hb : tram_off u.id
          · rfl
          · exact absurd hb h2
        refine ⟨?_, h1', h2'⟩
        by_cases h3 : pressed_filter pressed_m u
        all_goals
          simp [h1', h2', h3] at hcond
        all_goals
          subst hcond
        all_goals
          rfl

/-- Witness for C2 at a one-unit snapshot: the concrete entry in the plan
comes from an enabled, non-tramlined unit record. -/
theorem plan_cycle_sorted_and_filtered_witness :
    ∃ u ∈ [(⟨1, true, Group.A, "None", 0, 0, UnitMode.inherit, 100, 5⟩ :
        UnitState)],
      (⟨1, 0, none, ModeInfo.flow 100 100⟩ : Entry).uid = u.id ∧
      u.enabled = true ∧ (fun _ => false : ℤ → Bool) u.id = false := by
  have hm : (⟨1, 0, none, ModeInfo.flow 100 100⟩ : Entry)
      ∈ plan_cycle Pattern.line (fun _ => false)
        ⟨100, DeliveryMode.flow, ⟨true, 500, 0, 500⟩, [],
          [⟨1, true, Group.A, "None", 0, 0, UnitMode.inherit, 100, 5⟩]⟩
        0 none := by
    rw [show plan_cycle Pattern.line (fun _ => false)
        ⟨100, DeliveryMode.flow, ⟨true, 500, 0, 500⟩, [],
          [⟨1, true, Group.A, "None", 0, 0, UnitMode.inherit, 100, 5⟩]⟩
        0 none = [⟨1, 0, none, ModeInfo.flow 100 100⟩] from rfl]
    exact List.mem_singleton_self _
  exact (plan_cycle_sorted_and_filtered Pattern.line (fun _ => false)
    ⟨100, DeliveryMode.flow, ⟨true, 500, 0, 500⟩, [],
      [⟨1, true, Group.A, "None", 0, 0, UnitMode.inherit, 100, 5⟩]⟩
    0 none).2 _ hm

/-- C3: for a unit whose effective delivery mode is `timed` (and a
positive `msPerMl`, as the data model requires), the planned duration is
exactly `round(target_ml × ms_per_ml)` with `target_ml` floored at 1 and
`ms_per_ml` floored at 0.1. -/
theorem timed_duration_eq (u : UnitState) (st : BrainStateView)
    (hm : 0 < u.msPerMl)
    (ht : inherit_mode st.deliveryMode u.mode = DeliveryMode.timed) :
    (duration_and_mode u st).1
      = some (pyRound ((max 1 st.targetMl : ℤ) * max (1/10 : ℚ) u.msPerMl)) := by
  unfold duration_and_mode
  rw [ht]
  simp only [if_neg (ne_of_gt hm)]

/-- Witness for C3: `target_ml = 100`, unit mode `timed`, `ms_per_ml = 5.0`
gives `duration_ms = 500` exactly. -/
theorem timed_duration_eq_witness :
    (duration_and_mode
        ⟨1, true, Group.A, "M1", 0, 0, UnitMode.timed, 100, 5⟩
        ⟨100, DeliveryMode.flow, ⟨true, 500, 0, 500⟩, [], []⟩).1
      = some 500 := by
  have h := timed_duration_eq
    ⟨1, true, Group.A, "M1", 0, 0, UnitMode.timed, 100, 5⟩
    ⟨100, DeliveryMode.flow, ⟨true, 500, 0, 500⟩, [], []⟩
    (by norm_num) rfl
  rw [h]
  norm_num [pyRound]

/-- C4 counterexample: for a flow-mode unit with the repository defaults
(`target_ml = 100`, `pulsesPerCycle = 100`, K-factor `pulsesPerLiter =
450`) the descriptor carries 100 pulses, while the claimed formula
`round(target_ml × pulses_per_liter / 1000)` capped at pulses-per-cycle
gives 45: the scheduler never performs the K-factor conversion. -/
theorem flow_descriptor_ignores_kfactor :
    (duration_and_mode
        ⟨1, true, Group.A, "M1", 0, 0, UnitMode.flow, 100, 5⟩
        ⟨100, DeliveryMode.timed, ⟨true, 500, 0, 500⟩, [], []⟩).2
      = ModeInfo.flow 100 100 ∧
    min (pyRound ((100 : ℚ) * 450 / 1000)) 100 = 45 ∧
    (100 : ℤ) ≠ 45 := by
  refine ⟨rfl, ?_, by decide⟩
  norm_num [pyRound]

/-- C4 amended: for a unit whose effective delivery mode is `flow` (with
`pulsesPerCycle ≥ 1` as the data model requires), the entry has no
upfront duration and the descriptor carries the unit's configured
pulses-per-cycle itself, together with `target_ml` floored at 1; no
K-factor conversion is applied. -/
theorem flow_descriptor_carries_ppc (u : UnitState) (st : BrainStateView)
    (hppc : 1 ≤ u.pulsesPerCycle)
    (hf : inherit_mode st.deliveryMode u.mode = DeliveryMode.flow) :
    (duration_and_mode u st).1 = none ∧
    (duration_and_mode u st).2
      = ModeInfo.flow u.pulsesPerCycle (max 1 st.targetMl) := by
  unfold duration_and_mode
  rw [hf]
  have h0 : ¬ u.pulsesPerCycle = 0 := by omega
  rw [if_neg h0]
  exact ⟨rfl, by rw [max_eq_right hppc]⟩

/-- Witness for the amended C4 at the repository defaults. -/
theorem flow_descriptor_carries_ppc_witness :
    (duration_and_mode
        ⟨3, true, Group.B, "M2", 0, 0, UnitMode.inherit, 100, 5⟩
        ⟨100, DeliveryMode.flow, ⟨true, 500, 0, 500⟩, [], []⟩).1 = none ∧
    (duration_and_mode
        ⟨3, true, Group.B, "M2", 0, 0, UnitMode.inherit, 100, 5⟩
        ⟨100, DeliveryMode.flow, ⟨true, 500, 0, 500⟩, [], []⟩).2
      = ModeInfo.flow 100 100 :=
  flow_descriptor_carries_ppc
    ⟨3, true, Group.B, "M2", 0, 0, UnitMode.inherit, 100, 5⟩
    ⟨100, DeliveryMode.flow, ⟨true, 500, 0, 500⟩, [], []⟩
    (by decide) rfl

/-- C5 counterexample: a unit bound to switch `M1` whose config is
disabled (`enabled = false`) with offset 50% still contributes 500 ms;
`_momentary_ms` never consults the `enabled` flag, so the claimed
"0 when the bound switch is disabled" fails. -/
theorem momentary_ignores_enabled :
    momentary_ms [("M1", ⟨false, 50⟩)] "M1" = 500 ∧ (500 : ℤ) ≠ 0 := by
  refine ⟨?_, by decide⟩
  norm_num [momentary_ms, List.lookup]

/-- C5 amended: the momentary-offset component equals
`clamp(offset_percent, 0, 100) × 10` ms for whatever config is bound to
the unit's switch name — regardless of that config's `enabled` flag — and
it is 0 exactly when no config is bound to the name (including the
literal name `"None"`); the result always lies in `[0, 1000]`. -/
theorem momentary_offset_formula (m : List (String × MomentaryCfg))
    (name : String) :
    (m.lookup name = none → momentary_ms m name = 0) ∧
    (∀ cfg, m.lookup name = some cfg →
      momentary_ms m name = (max 0 (min 100 cfg.offset)) * 10) ∧
    0 ≤ momentary_ms m name ∧ momentary_ms m name ≤ 1000 := by
  unfold momentary_ms
  refine ⟨fun h => by rw [h], fun cfg h => by rw [h], ?_⟩
  cases h : m.lookup name with
  | none => simp
  | some cfg =>
      constructor
      · show (0 : ℤ) ≤ (max 0 (min 100 cfg.offset)) * 10
        positivity
      · show (max 0 (min 100 cfg.offset)) * 10 ≤ 1000
        omega

/-- Witness for the amended C5: offset 100% on a bound, enabled switch
maps to 1000 ms. -/
theorem momentary_offset_formula_witness :
    momentary_ms [("M2", ⟨true, 100⟩)] "M2"
      = (max 0 (min 100 (100 : ℤ))) * 10 :=
  (momentary_offset_formula [("M2", ⟨true, 100⟩)] "M2").2.1
    ⟨true, 100⟩ rfl

/-- C6 counterexample: with AutoDelay enabled, `geom_lead_ms = 0` and the
three in-window presses 0.999 s, 2 s, 3.001 s (mean interval 1001 ms),
the code publishes `int(500.5) = 500` while the claimed
`round(mean_interval_ms / 2)` gives 501: the loop truncates, it does not
round. -/
theorem auto_delay_truncates_not_rounds :
    auto_delay_tick 3 ⟨true, 500, 0, 500⟩ [999/1000, 2, 3001/1000] = 500 ∧
    spec_enabled_current 3 ⟨true, 500, 0, 500⟩ [999/1000, 2, 3001/1000] = 501 ∧
    (window_presses 3 [999/1000, 2, 3001/1000]).length = 3 ∧
    (500 : ℤ) ≠ 501 := by
  refine ⟨?_, ?_, ?_, by decide⟩
  · norm_num [auto_delay_tick, window_presses, press_intervals, pyTrunc]
  · norm_num [spec_enabled_current, mean_interval_ms, window_presses,
      press_intervals, round_eq]
  · norm_num [window_presses]

/-- C6 amended: on every estimator tick, if AutoDelay is disabled the
value is `max(0, manual_ms + geom_lead_ms)` regardless of press history;
if enabled and fewer than 3 presses lie in the last 15 s it is the same
manual fallback; otherwise it is `max(0, max(0, trunc(mean_interval_ms /
2)) + geom_lead_ms)` where `trunc` is Python `int` truncation toward
zero, not rounding. -/
theorem auto_delay_tick_cases (now : ℚ) (ad : AutoDelay) (hist : List ℚ) :
    (ad.enabled = false →
      auto_delay_tick now ad hist = max 0 (ad.manualMs + ad.geomLeadMs)) ∧
    (ad.enabled = true → (window_presses now hist).length < 3 →
      auto_delay_tick now ad hist = max 0 (ad.manualMs + ad.geomLeadMs)) ∧
    (ad.enabled = true → 3 ≤ (window_presses now hist).length →
      auto_delay_tick now ad hist
        = max 0 (max 0 (pyTrunc (mean_interval_ms now hist / 2))
            + ad.geomLeadMs)) := by
  unfold auto_delay_tick
  refine ⟨fun h => by rw [if_pos h], fun h hlt => ?_, fun h hge => ?_⟩
  · rw [if_neg (by simp [h])]
    have hc : ¬ 3 ≤ (window_presses now hist).length := by omega
    simp only [if_neg hc]
  · rw [if_neg (by simp [h])]
    simp only [if_pos hge]
    have harg : (press_intervals (window_presses now hist)).sum
        / ((press_intervals (window_presses now hist)).length : ℚ)
        * 1000 / 2
        = mean_interval_ms now hist / 2 := by
      rw [mean_interval_ms]
    rw [harg]

/-- Witness for the amended C6: presses at 0 s, 1 s, 2 s with AutoDelay
enabled and no geometry lead give `trunc(1000/2) = 500`. -/
theorem auto_delay_tick_cases_witness :
    auto_delay_tick 2 ⟨true, 300, 0, 0⟩ [0, 1, 2]
      = max 0 (max 0 (pyTrunc (mean_interval_ms 2 [0, 1, 2] / 2)) + 0) := by
  have h := (auto_delay_tick_cases 2 ⟨true, 300, 0, 0⟩ [0, 1, 2]).2.2
    rfl (by norm_num [window_presses])
  exact h

/-- C7: whenever the timed drive asserts a mapped unit's output, every
exit path of the wait — normal duration expiry, cancellation mid-wait, or
abnormal termination — deasserts it exactly once (the writes are exactly
the pair HIGH, LOW and the trace ends deasserted); an unmapped unit
performs no writes at all. -/
theorem timed_drive_release_on_every_exit (o : SleepExit) :
    open_unit_for_drives true o = [Drive.setHigh, Drive.setLow] ∧
    (open_unit_for_drives true o).count Drive.setLow
      = (open_unit_for_drives true o).count Drive.setHigh ∧
    (open_unit_for_drives true o).getLast? = some Drive.setLow ∧
    open_unit_for_drives false o = [] := by
  cases o <;> exact ⟨rfl, rfl, rfl, rfl⟩

/-- C8 counterexample: appending a press at t = 100 s to a history
holding a press at t = 0 s keeps the 100-second-old entry, so the store
does not retain only entries within a 15-second trailing window. -/
theorem press_append_keeps_old_entry :
    press_append [0] 100 = [0, 100] ∧
    (0 : ℚ) ∈ press_append [0] 100 ∧
    ¬ ((100 : ℚ) - 0 < 15) := by
  refine ⟨?_, ?_, by norm_num⟩ <;> norm_num [press_append]

/-- C8 amended: after every append the history is hard-capped at 20
entries with the oldest evicted (it is a suffix of the old history plus
the new press) and the new press is always retained; the 15-second window
is applied only when the estimator reads the history, not at append. -/
theorem press_append_cap_spec (hist : List ℚ) (now : ℚ) :
    (press_append hist now).length = min (hist.length + 1) 20 ∧
    press_append hist now <:+ hist ++ [now] ∧
    now ∈ press_append hist now := by
  refine ⟨?_, List.drop_suffix _ _, ?_⟩
  · show ((hist ++ [now]).drop ((hist ++ [now]).length - 20)).length
      = min (hist.length + 1) 20
    rw [List.length_drop]
    simp only [List.length_append, List.length_singleton]
    omega
  · show now ∈ (hist ++ [now]).drop ((hist ++ [now]).length - 20)
    have hle : (hist ++ [now]).length - 20 ≤ hist.length := by
      simp only [List.length_append, List.length_singleton]
      omega
    rw [List.drop_append_of_le_length hle]
    simp

/-- C9: the read-and-reset of the pulse counter is two separate atomic
steps (`c = self._pulse_count` then `self._pulse_count = 0`) while
`RPiGPIO._flow_cb` increments from the GPIO callback thread; scheduling
one increment between the two steps loses it — one increment happens but
the total ever observed (returned values plus the remaining counter) is
zero, contradicting the claimed atomicity. -/
theorem pulse_lost_on_interleaved_increment :
    pulses_delivered [PulseAct.load, PulseAct.inc, PulseAct.reset] = 0 ∧
    [PulseAct.load, PulseAct.inc, PulseAct.reset].count PulseAct.inc = 1 := by
  decide

/-- C10: `plan_cycle` is independent of the `pressed_m` argument — the
pressed-switch filter's body is `pass`, so units bound to a different
switch are still scheduled and the returned list is identical for every
value of `pressed_m`, including `none`. -/
theorem plan_cycle_pressed_independent (p : Pattern) (tram_off : ℤ → Bool)
    (st : BrainStateView) (now_ms : ℤ) (m1 m2 : Option String) :
    plan_cycle p tram_off st now_ms m1 = plan_cycle p tram_off st now_ms m2 := by
  unfold plan_cycle
  simp only [ite_self]

end EvenCrop
